import Mathlib

/-!
Verification of the e2020 data viewer core.

Shallow embedding of the pivot-table viewer (`src/components/viewer.rs`),
the table-open routine (`src/data.rs`) and the catalog scan
(`src/components/picker.rs`).  Numeric cells (f64 in the source) are
modelled as exact rationals; the 2-D slice returned by the store adapter
is modelled as a list of lists in C order (outer index = ndarray axis 0).
-/

namespace E2020

/-- Absolute tolerance used by the zero test in the formatter: the default
epsilon of the approx crate for 64-bit floats, `f64::EPSILON`. -/
def epsAbs : ℚ := 1 / 2 ^ 52

/-- Model of the fixed two-decimal rendering used by the formatter
for a numeric cell (rounding half away from zero). -/
def twoDecString (f : ℚ) : String :=
  let n : Int := ⌊f * 100 + 1 / 2⌋
  let m := n.natAbs
  let frac := m % 100
  (if n < 0 then "-" else "") ++ toString (m / 100) ++ "." ++
    (if frac < 10 then "0" else "") ++ toString frac

/-- Per-cell formatter of Viewer::data: a dash for a value that is zero
within tolerance (when the dash mode is on), the integer string for an
integral value (when the dash mode is on), else two decimals. -/
def formatCell (show_zeros_as_dashes : Bool) (f : ℚ) : String :=
  if show_zeros_as_dashes = true ∧ |f| ≤ epsAbs then "-"
  else if show_zeros_as_dashes = true ∧ f.den = 1 then toString f.num
  else twoDecString f

/-- `data.sum_axis(Axis(0))`: sum along axis 0 of a 2-D array stored as a
list of axis-0 lanes; `n` is the extent of axis 1. -/
def sumAxis0 (n : Nat) (A : List (List ℚ)) : List ℚ :=
  (List.range n).map (fun j => (A.map (fun r => r.getD j 0)).sum)

/-- `data.sum_axis(Axis(1))`: sum along axis 1. -/
def sumAxis1 (A : List (List ℚ)) : List ℚ :=
  A.map List.sum

/-- `data.t()` and also `data.map_axis(Axis(0), to_vec)`: the lanes along
axis 0, indexed by axis 1; `n` is the extent of axis 1. -/
def tr (n : Nat) (A : List (List ℚ)) : List (List ℚ) :=
  (List.range n).map (fun j => A.map (fun r => r.getD j 0))

/-- The augmented numeric grid built by the `for i in 0..=rows` loop of
Viewer::data: each body row is its row total followed by the body cells
from the column scroll offset on; the last row is the grand total
followed by the column totals from the offset on. -/
def augGrid (col rows : Nat) (A : List (List ℚ)) : List (List ℚ) :=
  (List.range (rows + 1)).map (fun i =>
    if i = rows then (sumAxis0 rows A).sum :: (sumAxis1 A).drop col
    else (sumAxis0 rows A).getD i 0 :: ((tr rows A).getD i []).drop col)

/-- Viewer::data on a slice `B` of dims `(d0, d1)` as returned by
`read_slice_2d`: transpose when `axis1 > axis0`, augment with margin
totals, then format every cell. -/
def viewerData (axis0 axis1 col : Nat) (show_zeros_as_dashes : Bool)
    (d1 : Nat) (B : List (List ℚ)) : List (List String) :=
  let A := if axis0 < axis1 then tr d1 B else B
  let rows := if axis0 < axis1 then B.length else d1
  (augGrid col rows A).map (fun v => v.map (formatCell show_zeros_as_dashes))

/-- The slice of Data the viewer state needs: dimension count, dimension
names and per-dimension coordinate labels. -/
structure DataV where
  ndims : Nat
  set_names : List String
  set_data : List (List String)
deriving DecidableEq

/-- The per-dimension loop of Summary::refresh: for each i below
set_names.len() it indexes set_data[i], indices[i] and then
set_data[i][indices[i]]; any out-of-bounds index panics, modelled as
none.  On success it yields the kvs, kis and total_indices pushed by
the loop. -/
def summaryRefreshLoop (d : DataV) (indices : List Nat) :
    Nat → List String → Option (List (String × String) × List Nat × List Nat)
  | _, [] => some ([], [], [])
  | i, dim :: rest =>
    (d.set_data[i]?).bind fun sd =>
      (indices[i]?).bind fun idx =>
        (sd[idx]?).bind fun label =>
          (summaryRefreshLoop d indices (i + 1) rest).map fun r =>
            ((dim, label) :: r.1, idx :: r.2.1, sd.length :: r.2.2)

/-- Summary::refresh (summary.rs:28-50), up to the fields the viewer
claims observe: the name/doc copies, the stored axis pair and the
unused shape clone are omitted; the loop over set_names is modelled in
full, panic included. -/
def summaryRefresh (d : DataV) (indices : List Nat) :
    Option (List (String × String) × List Nat × List Nat) :=
  summaryRefreshLoop d indices 0 d.set_names

/-- The fields of the Viewer struct that the verified operations touch. -/
structure Viewer where
  axis0 : Nat
  axis1 : Nat
  col : Nat
  row : Nat
  ncol : Nat
  nrow : Nat
  active_index : List Nat
  selected : Option Nat
  show_zeros_as_dashes : Bool
  data : Option DataV

namespace Viewer

/-- Viewer::initialize_state: fix equal free axes, derive the axis
extents by indexing the coordinate lists, seed an empty fixed-index
vector, then run Summary::refresh.  `none` models both the missing-data
error return and a panic on an out-of-bounds index (in the extent
lookups or inside Summary::refresh); Select::refresh never fails, and
the Summary and Select components themselves are outside the modelled
state. -/
def initialize_state (v : Viewer) : Option Viewer :=
  v.data.bind fun d =>
    let a0 := if v.axis0 = v.axis1 then d.ndims - 1 else v.axis0
    let a1 := if v.axis0 = v.axis1 then 0 else v.axis1
    (d.set_data[a0]?).bind fun col_labels =>
      (d.set_data[a1]?).bind fun row_labels =>
        let ai := if v.active_index.isEmpty then List.replicate d.ndims 0
                  else v.active_index
        (summaryRefresh d ai).bind fun _ =>
          some { v with axis0 := a0, axis1 := a1, ncol := col_labels.length,
                        nrow := row_labels.length, active_index := ai }

/-- Viewer::increment_axis0. -/
def increment_axis0 (v : Viewer) : Viewer :=
  let a := v.axis0 + 1
  let a := if v.active_index.length ≤ a then 0 else a
  let a := if a = v.axis1 then
      let b := a + 1
      if v.active_index.length ≤ b then 0 else b
    else a
  { v with row := 0, col := 0, axis0 := a }

/-- Viewer::increment_axis1. -/
def increment_axis1 (v : Viewer) : Viewer :=
  let a := v.axis1 + 1
  let a := if v.active_index.length ≤ a then 0 else a
  let a := if a = v.axis0 then
      let b := a + 1
      if v.active_index.length ≤ b then 0 else b
    else a
  { v with row := 0, col := 0, axis1 := a }

/-- Viewer::decrement_axis0 (note: no scroll reset in the source). -/
def decrement_axis0 (v : Viewer) : Viewer :=
  let a := if v.axis0 = 0 then v.active_index.length - 1 else v.axis0 - 1
  let a := if a = v.axis1 then
      if a = 0 then v.active_index.length - 1 else a - 1
    else a
  { v with axis0 := a }

/-- Viewer::decrement_axis1 (note: no scroll reset in the source). -/
def decrement_axis1 (v : Viewer) : Viewer :=
  let a := if v.axis1 = 0 then v.active_index.length - 1 else v.axis1 - 1
  let a := if a = v.axis0 then
      if a = 0 then v.active_index.length - 1 else a - 1
    else a
  { v with axis1 := a }

/-- Viewer::move_top. -/
def move_top (v : Viewer) : Viewer :=
  if v.nrow = 0 then { v with selected := none }
  else { v with selected := some 0 }

/-- Viewer::move_bottom. -/
def move_bottom (v : Viewer) : Viewer :=
  if v.nrow = 0 then { v with selected := none }
  else { v with selected := some (v.nrow + 1) }

/-- Viewer::move_next. -/
def move_next (v : Viewer) : Viewer :=
  if v.nrow = 0 then { v with selected := none }
  else
    match v.selected with
    | some i => { v with selected := some (if v.nrow < i then 0 else i + 1) }
    | none => { v with selected := some 0 }

/-- Viewer::move_previous. -/
def move_previous (v : Viewer) : Viewer :=
  if v.nrow = 0 then { v with selected := none }
  else
    match v.selected with
    | some i => { v with selected := some (if i = 0 then v.nrow else i - 1) }
    | none => { v with selected := some 0 }

/-- Viewer::move_right. -/
def move_right (v : Viewer) : Viewer :=
  { v with col := min (v.col + 1) v.ncol }

/-- Viewer::move_left. -/
def move_left (v : Viewer) : Viewer :=
  { v with col := v.col - 1 }

/-- Viewer::move_home. -/
def move_home (v : Viewer) : Viewer :=
  { v with col := 0 }

/-- Viewer::move_end. -/
def move_end (v : Viewer) : Viewer :=
  { v with col := v.ncol }

end Viewer

/-- The four axis-cycling commands. -/
inductive AxisOp
  | inc0
  | inc1
  | dec0
  | dec1

/-- Dispatch one axis-cycling command. -/
def applyAxisOp : AxisOp → Viewer → Viewer
  | .inc0 => Viewer.increment_axis0
  | .inc1 => Viewer.increment_axis1
  | .dec0 => Viewer.decrement_axis0
  | .dec1 => Viewer.decrement_axis1

/-- Apply a sequence of axis-cycling commands, left to right. -/
def applyAxisOps (ops : List AxisOp) (v : Viewer) : Viewer :=
  ops.foldl (fun s op => applyAxisOp op s) v

/-- Both free axes in range and distinct; the range bound is the length
of the fixed-index vector, which the cycling code uses as the modulus
(equal to ndims in every initialized state). -/
abbrev axesOK (v : Viewer) : Prop :=
  v.axis0 < v.active_index.length ∧ v.axis1 < v.active_index.length ∧
    v.axis0 ≠ v.axis1

/-- The selected row index, when present, lies in the augmented grid's
extended row range `[0, nrow + 2)`. -/
def selWithinB (v : Viewer) : Bool :=
  match v.selected with
  | none => true
  | some i => decide (i < v.nrow + 2)

/-- Model of one HDF5 dataset as Data::new reads it: its stored name,
native-order shape, scalar attributes, 1-D list attributes and its own
1-D string contents (used when the dataset is a coordinate table). -/
structure DatasetM where
  dname : String
  shape : List Nat
  attrScalar : String → Option String
  attr1d : String → Option (List String)
  read1d : Option (List String)

/-- Model of an HDF5 file: dataset lookup by path. -/
structure FileM where
  dataset : String → Option DatasetM

/-- The record Data::new produces (minus the live dataset handle). -/
structure DataR where
  name : String
  doc : String
  units : String
  set_names : List String
  ndims : Nat
  typ : String
  shape : List Nat
  set_data : List (List String)

/-- Rust `str::split('/')`, on the character list of a string. -/
def splitSlash : List Char → List String
  | [] => [""]
  | '/' :: rest => "" :: splitSlash rest
  | c :: rest =>
    match splitSlash rest with
    | [] => [String.mk [c]]
    | s :: ss => (String.mk (c :: s.toList)) :: ss

/-- The group-name computation of Data::new: first non-empty slash
component of the dataset name. -/
def gName (name : String) : String :=
  ((splitSlash name.toList).filter (fun s => ¬ s.isEmpty)).headD ""

/-- The coordinate-table loop of Data::new: read each dimension's label
table `group/dim`; any missing table or unreadable contents fails. -/
def readCoords (f : FileM) (g : String) : List String → Option (List (List String))
  | [] => some []
  | dim :: rest =>
    (f.dataset (g ++ "/" ++ dim)).bind fun ds =>
      ds.read1d.bind fun set =>
        (readCoords f g rest).bind fun r => some (set :: r)

/-- Data::new: open the dataset, read the `units`, `doc`, `type` and
`dims` attributes, reverse the shape and read every coordinate table.
Every read failure aborts; no other check is performed. -/
def DataNew (f : FileM) (name : String) : Option DataR :=
  (f.dataset name).bind fun dataset =>
    (dataset.attrScalar "units").bind fun units =>
      (dataset.attrScalar "doc").bind fun doc =>
        (dataset.attrScalar "type").bind fun typ =>
          (dataset.attr1d "dims").bind fun set_names =>
            (readCoords f (gName dataset.dname) set_names).bind fun set_data =>
              some ⟨dataset.dname, doc, units, set_names,
                dataset.shape.length, typ, dataset.shape.reverse, set_data⟩

/-- The two shared progress quantities of the catalog scan: the shared
dataset collection (modelled by the names successfully opened) and the
`ndatasets` counter. -/
structure ScanState where
  datasets : List String
  ndatasets : Nat
deriving DecidableEq

/-- The per-table loop of Picker::get_datasets, recording the shared
state after each table is processed; `openOk` models whether Data::new
succeeds on a name, `cancel` models the cancellation flag as read after
each table, `k` is the step index. -/
def scanLoopTrace (openOk : String → Bool) (cancel : Nat → Bool) :
    List String → Nat → List String → Nat → List ScanState
  | [], _, _, _ => []
  | name :: rest, k, ds, nd =>
    let ds2 := if openOk name then ds ++ [name] else ds
    ⟨ds2, nd⟩ :: (if cancel k then []
                  else scanLoopTrace openOk cancel rest (k + 1) ds2 nd)

/-- The dataset collection left by the per-table loop. -/
def scanLoopFinal (openOk : String → Bool) (cancel : Nat → Bool) :
    List String → Nat → List String → List String
  | [], _, ds => ds
  | name :: rest, k, ds =>
    let ds2 := if openOk name then ds ++ [name] else ds
    if cancel k then ds2 else scanLoopFinal openOk cancel rest (k + 1) ds2

/-- The full shared-state trace of one scan: the initial state, the state
after the collection is drained, the state after the discovered total is
stored, the per-table states, and the completion state in which
`ndatasets` is overwritten with the success count. -/
def scanTrace (openOk : String → Bool) (cancel : Nat → Bool)
    (init : ScanState) (names : List String) : List ScanState :=
  let loopStates := scanLoopTrace openOk cancel names 0 [] names.length
  let finalDs := scanLoopFinal openOk cancel names 0 []
  init :: ⟨[], init.ndatasets⟩ :: ⟨[], names.length⟩ ::
    (loopStates ++ [⟨finalDs, finalDs.length⟩])

/-- Both counters non-decreasing along a list of shared states. -/
def countersMonoB : List ScanState → Bool
  | [] => true
  | [_] => true
  | a :: b :: rest =>
    (decide (a.datasets.length ≤ b.datasets.length) &&
      decide (a.ndatasets ≤ b.ndatasets)) && countersMonoB (b :: rest)

end E2020

namespace E2020


/-- Concrete viewer state used for claim C1. -/
def c1ex : Viewer := ⟨1, 0, 0, 0, 3, 3, [0, 0, 0], none, true, none⟩

/-- Concrete viewer state used for claim C3. -/
def c3ex : Viewer := ⟨1, 0, 1, 1, 2, 2, [0, 0], none, true, none⟩

/-- Concrete viewer state used for claim C7. -/
def c7ex : Viewer := ⟨1, 0, 0, 0, 2, 1, [0, 0], some 0, true, none⟩

/-- Concrete viewer state used for claim C8. -/
def c8ex : Viewer := ⟨1, 0, 0, 0, 1, 1, [0, 0], none, true, none⟩

/-- Concrete viewer state used for the claim C10 counterexample: equal free
axes and a non-empty fixed-index vector longer than ndims, with every
entry inside its axis extent so Summary::refresh succeeds. -/
def c10ex : Viewer :=
  ⟨0, 0, 0, 0, 0, 0, [0, 0, 0], none, true,
    some ⟨2, ["r", "c"], [["a"], ["b"]]⟩⟩

/-- Concrete viewer state used for the claim C10 witness. -/
def c10wit : Viewer :=
  ⟨0, 0, 0, 0, 0, 0, [], none, true, some ⟨2, ["r", "c"], [["a"], ["b"]]⟩⟩

/-- The state initialize_state produces from c10wit. -/
def c10witResult : Viewer :=
  ⟨1, 0, 0, 0, 1, 1, [0, 0], none, true,
    some ⟨2, ["r", "c"], [["a"], ["b"]]⟩⟩

/-- Concrete 2-D slice used for the claim C2 witness. -/
def c2B : List (List ℚ) := [[1, 2], [3, 4]]

/-- Concrete 2-D slice used for the claim C6 witness. -/
def c6A : List (List ℚ) := [[1, 2, 3], [4, 5, 6]]

/-- Open oracle for the claim C4 counterexample: only table "a" opens. -/
def c4openOk : String → Bool := fun s => s = "a"

/-- The table dataset of the claim C5 store: declared shape [2], required
attributes present, one dimension named d0. -/
def c5ds : DatasetM where
  dname := "/g/t"
  shape := [2]
  attrScalar := fun a =>
    if a = "units" ∨ a = "doc" ∨ a = "type" then some "u" else none
  attr1d := fun a => if a = "dims" then some ["d0"] else none
  read1d := none

/-- The coordinate table of the claim C5 store: 3 labels, disagreeing
with the declared shape entry 2. -/
def c5coord : DatasetM where
  dname := "g/d0"
  shape := [3]
  attrScalar := fun _ => none
  attr1d := fun _ => none
  read1d := some ["x", "y", "z"]

/-- The claim C5 store. -/
def c5file : FileM where
  dataset := fun s =>
    if s = "/g/t" then some c5ds
    else if s = "g/d0" then some c5coord
    else none

theorem applyAxisOp_active_index (op : AxisOp) (v : Viewer) :
    (applyAxisOp op v).active_index = v.active_index := by
  cases op <;> rfl

theorem axesOK_applyAxisOp (op : AxisOp) (v : Viewer)
    (h2 : 2 ≤ v.active_index.length) (h : axesOK v) :
    axesOK (applyAxisOp op v) := by
  obtain ⟨h0, h1, hne⟩ := h
  cases op <;>
    · simp only [applyAxisOp, Viewer.increment_axis0, Viewer.increment_axis1,
        Viewer.decrement_axis0, Viewer.decrement_axis1, axesOK]
      split_ifs <;> omega

/-- Claim C1: starting from a state whose fixed-index vector has length
ndims at least 2 and whose free axes are in range and distinct, any
sequence of the four axis-cycling operations keeps the two free axes in
range and distinct (and never touches the fixed-index vector, so the
modulus stays ndims throughout). -/
theorem c1_axes_stay_distinct (ops : List AxisOp) (v : Viewer)
    (h2 : 2 ≤ v.active_index.length) (h : axesOK v) :
    axesOK (applyAxisOps ops v) ∧
      (applyAxisOps ops v).active_index = v.active_index := by
  induction ops generalizing v with
  | nil => exact ⟨h, rfl⟩
  | cons op ops ih =>
    have hai := applyAxisOp_active_index op v
    have hstep := axesOK_applyAxisOp op v h2 h
    have h2b : 2 ≤ (applyAxisOp op v).active_index.length := by
      rw [hai]; exact h2
    have hrec := ih (applyAxisOp op v) h2b hstep
    exact ⟨hrec.1, hrec.2.trans hai⟩

/-- Witness for C1 at a concrete state and command sequence. -/
theorem c1_axes_stay_distinct_witness :
    axesOK (applyAxisOps [AxisOp.inc0, AxisOp.dec1, AxisOp.inc1, AxisOp.dec0]
      c1ex) ∧
      (applyAxisOps [AxisOp.inc0, AxisOp.dec1, AxisOp.inc1, AxisOp.dec0]
        c1ex).active_index = c1ex.active_index :=
  c1_axes_stay_distinct [AxisOp.inc0, AxisOp.dec1, AxisOp.inc1, AxisOp.dec0]
    c1ex (by decide) (by decide)

/-- Claim C3 counterexample: decrement_axis0 leaves a nonzero column
scroll in place, so the axis-cycling operations do not all reset the
scroll offsets. -/
theorem c3_counterexample :
    (Viewer.decrement_axis0 c3ex).col = 1 ∧
      ¬ (Viewer.decrement_axis0 c3ex).col = 0 := by
  decide

/-- Claim C3 amended: the two increment operations reset both scroll
offsets to 0, the two decrement operations leave both scroll offsets
unchanged, and all four leave the fixed-index vector unchanged. -/
theorem c3_axis_cycle_scroll_effects (v : Viewer) :
    ((Viewer.increment_axis0 v).row = 0 ∧ (Viewer.increment_axis0 v).col = 0 ∧
      (Viewer.increment_axis0 v).active_index = v.active_index) ∧
    ((Viewer.increment_axis1 v).row = 0 ∧ (Viewer.increment_axis1 v).col = 0 ∧
      (Viewer.increment_axis1 v).active_index = v.active_index) ∧
    ((Viewer.decrement_axis0 v).row = v.row ∧
      (Viewer.decrement_axis0 v).col = v.col ∧
      (Viewer.decrement_axis0 v).active_index = v.active_index) ∧
    ((Viewer.decrement_axis1 v).row = v.row ∧
      (Viewer.decrement_axis1 v).col = v.col ∧
      (Viewer.decrement_axis1 v).active_index = v.active_index) :=
  ⟨⟨rfl, rfl, rfl⟩, ⟨rfl, rfl, rfl⟩, ⟨rfl, rfl, rfl⟩, ⟨rfl, rfl, rfl⟩⟩

/-- Claim C7 counterexample: move_bottom selects index nrow + 1, which
equals row_count = nrow + 1 and so is outside [0, row_count). -/
theorem c7_counterexample :
    (Viewer.move_bottom c7ex).selected = some 2 ∧ c7ex.nrow + 1 = 2 ∧
      ¬ (2 < 2) := by
  decide

/-- Claim C7 amended: with a nonzero row extent the four cursor motions
keep the selected index within [0, nrow + 2): move_top always selects 0
and move_bottom always selects nrow + 1 (clamping, no wraparound), while
move_next wraps to 0 exactly from indices above nrow and otherwise
increments, and move_previous wraps from 0 to nrow and otherwise
decrements. -/
theorem c7_cursor_range (v : Viewer) (h : selWithinB v = true) :
    selWithinB (Viewer.move_top v) = true ∧
    selWithinB (Viewer.move_bottom v) = true ∧
    selWithinB (Viewer.move_next v) = true ∧
    selWithinB (Viewer.move_previous v) = true ∧
    (v.nrow ≠ 0 → (Viewer.move_top v).selected = some 0) ∧
    (v.nrow ≠ 0 → (Viewer.move_bottom v).selected = some (v.nrow + 1)) ∧
    (∀ i, v.nrow ≠ 0 → v.selected = some i → v.nrow < i →
      (Viewer.move_next v).selected = some 0) ∧
    (∀ i, v.nrow ≠ 0 → v.selected = some i → ¬ v.nrow < i →
      (Viewer.move_next v).selected = some (i + 1)) ∧
    (v.nrow ≠ 0 → v.selected = some 0 →
      (Viewer.move_previous v).selected = some v.nrow) ∧
    (∀ i, v.nrow ≠ 0 → v.selected = some i → i ≠ 0 →
      (Viewer.move_previous v).selected = some (i - 1)) := by
  rcases hv : v.selected with _ | i <;>
    by_cases hn : v.nrow = 0 <;>
      simp_all [selWithinB, Viewer.move_top, Viewer.move_bottom,
        Viewer.move_next, Viewer.move_previous] <;>
      split_ifs <;> simp_all <;> omega

/-- Witness for the amended C7 at a concrete state. -/
theorem c7_cursor_range_witness :
    selWithinB (Viewer.move_top c7ex) = true ∧
    selWithinB (Viewer.move_bottom c7ex) = true ∧
    selWithinB (Viewer.move_next c7ex) = true ∧
    selWithinB (Viewer.move_previous c7ex) = true ∧
    (c7ex.nrow ≠ 0 → (Viewer.move_top c7ex).selected = some 0) ∧
    (c7ex.nrow ≠ 0 →
      (Viewer.move_bottom c7ex).selected = some (c7ex.nrow + 1)) ∧
    (∀ i, c7ex.nrow ≠ 0 → c7ex.selected = some i → c7ex.nrow < i →
      (Viewer.move_next c7ex).selected = some 0) ∧
    (∀ i, c7ex.nrow ≠ 0 → c7ex.selected = some i → ¬ c7ex.nrow < i →
      (Viewer.move_next c7ex).selected = some (i + 1)) ∧
    (c7ex.nrow ≠ 0 → c7ex.selected = some 0 →
      (Viewer.move_previous c7ex).selected = some c7ex.nrow) ∧
    (∀ i, c7ex.nrow ≠ 0 → c7ex.selected = some i → i ≠ 0 →
      (Viewer.move_previous c7ex).selected = some (i - 1)) :=
  c7_cursor_range c7ex (by decide)

/-- Claim C8 counterexample: from a state with col < ncol, move_end sets
the column scroll to ncol itself, outside [0, ncol). -/
theorem c8_counterexample :
    c8ex.col < c8ex.ncol ∧ (Viewer.move_end c8ex).col = c8ex.ncol ∧
      ¬ ((Viewer.move_end c8ex).col < c8ex.ncol) := by
  decide

/-- Claim C8 amended: starting from col ≤ ncol, every scroll operation
leaves the column scroll within [0, ncol] (the inclusive bound is
reached by move_end and by saturated move_right). -/
theorem c8_col_range (v : Viewer) (h : v.col ≤ v.ncol) :
    (Viewer.move_right v).col ≤ v.ncol ∧ (Viewer.move_left v).col ≤ v.ncol ∧
    (Viewer.move_home v).col ≤ v.ncol ∧ (Viewer.move_end v).col ≤ v.ncol := by
  simp only [Viewer.move_right, Viewer.move_left, Viewer.move_home,
    Viewer.move_end]
  refine ⟨?_, ?_, ?_, ?_⟩ <;> simp <;> omega

/-- Witness for the amended C8 at a concrete state. -/
theorem c8_col_range_witness :
    (Viewer.move_right c8ex).col ≤ c8ex.ncol ∧
    (Viewer.move_left c8ex).col ≤ c8ex.ncol ∧
    (Viewer.move_home c8ex).col ≤ c8ex.ncol ∧
    (Viewer.move_end c8ex).col ≤ c8ex.ncol :=
  c8_col_range c8ex (by decide)

/-- Claim C10 counterexample: with ndims = 2 and a non-empty fixed-index
vector of length 3 whose entries are in range, initialize_state returns
successfully (Summary::refresh only reads indices[i] for i below
set_names.len()) and leaves the fixed-index vector at length 3 ≠ ndims. -/
theorem c10_counterexample :
    (Viewer.initialize_state c10ex).map (fun w => w.active_index.length) =
      some 3 ∧ c10ex.data.map DataV.ndims = some 2 ∧ (3 : Nat) ≠ 2 := by
  decide

theorem initialize_state_some (v w : Viewer)
    (hw : Viewer.initialize_state v = some w) :
    ∃ d, v.data = some d ∧
      w.axis0 = (if v.axis0 = v.axis1 then d.ndims - 1 else v.axis0) ∧
      w.axis1 = (if v.axis0 = v.axis1 then 0 else v.axis1) ∧
      w.active_index =
        (if v.active_index.isEmpty then List.replicate d.ndims 0
         else v.active_index) := by
  rcases hd : v.data with _ | d
  · rw [Viewer.initialize_state, hd] at hw
    simp at hw
  · rw [Viewer.initialize_state, hd] at hw
    simp only [Option.some_bind] at hw
    obtain ⟨cl, hcl, hw⟩ := Option.bind_eq_some.mp hw
    obtain ⟨rl, hrl, hw⟩ := Option.bind_eq_some.mp hw
    obtain ⟨srs, hsrs, hw⟩ := Option.bind_eq_some.mp hw
    obtain rfl := (Option.some.injEq _ _).mp hw
    exact ⟨d, rfl, rfl, rfl, rfl⟩

/-- Claim C10 amended: with loaded data and ndims ≥ 2, whenever
initialize_state returns successfully the free axes are distinct
(set to (ndims - 1, 0) when they were equal, kept otherwise), and when
the fixed-index vector was empty or already of length ndims the
resulting vector has length ndims (the all-zeros vector of length ndims
when it was empty).  A non-empty vector shorter than ndims makes
Summary::refresh panic on indices[i], so the call never returns
normally; a vector longer than ndims with in-range entries survives
with its wrong length. -/
theorem c10_initialize_state (v : Viewer) (d : DataV) (hd : v.data = some d)
    (hn : 2 ≤ d.ndims)
    (hai : v.active_index = [] ∨ v.active_index.length = d.ndims)
    (w : Viewer) (hw : Viewer.initialize_state v = some w) :
    w.axis0 ≠ w.axis1 ∧ w.active_index.length = d.ndims ∧
      (v.axis0 = v.axis1 → w.axis0 = d.ndims - 1 ∧ w.axis1 = 0) ∧
      (v.axis0 ≠ v.axis1 → w.axis0 = v.axis0 ∧ w.axis1 = v.axis1) ∧
      (v.active_index = [] → w.active_index = List.replicate d.ndims 0) := by
  obtain ⟨d2, hd2, ha0, ha1, hai2⟩ := initialize_state_some v w hw
  rw [hd] at hd2
  obtain rfl := (Option.some.injEq _ _).mp hd2
  by_cases he : v.axis0 = v.axis1 <;>
    by_cases hemp : v.active_index.isEmpty <;>
      simp_all [List.isEmpty_iff] <;> omega

theorem getD_map_range {α : Type} (f : Nat → α) (n i : Nat) (d : α)
    (h : i < n) : ((List.range n).map f).getD i d = f i := by
  rw [List.getD_eq_getElem?_getD]
  simp [List.getElem?_map, List.getElem?_range, h]

theorem sum_map_range (f : Nat → ℚ) (n : Nat) :
    ((List.range n).map f).sum = ∑ j in Finset.range n, f j := by
  induction n with
  | zero => simp
  | succ n ih =>
    rw [List.range_succ, List.map_append, List.sum_append,
      Finset.sum_range_succ, ih]
    simp

theorem list_sum_eq_sum_getD (r : List ℚ) :
    r.sum = ∑ j in Finset.range r.length, r.getD j 0 := by
  induction r with
  | nil => simp
  | cons x r ih =>
    rw [List.sum_cons, List.length_cons, Finset.sum_range_succ']
    simp only [List.getD_cons_succ, List.getD_cons_zero]
    rw [ih, add_comm]

theorem sum_over_cols (n : Nat) (A : List (List ℚ))
    (h : ∀ r ∈ A, r.length = n) :
    ∑ j in Finset.range n, (A.map (fun r => r.getD j 0)).sum
      = (A.map List.sum).sum := by
  induction A with
  | nil => simp
  | cons r A ih =>
    have hr := h r (List.mem_cons_self r A)
    have hA : ∀ x ∈ A, x.length = n := fun x hx =>
      h x (List.mem_cons_of_mem r hx)
    simp only [List.map_cons, List.sum_cons]
    rw [Finset.sum_add_distrib, ih hA, list_sum_eq_sum_getD r, hr]

theorem sumAxis0_sum (n : Nat) (A : List (List ℚ))
    (h : ∀ r ∈ A, r.length = n) :
    (sumAxis0 n A).sum = (A.map List.sum).sum := by
  rw [sumAxis0, sum_map_range, sum_over_cols n A h]

theorem tr_map_sum (n : Nat) (A : List (List ℚ)) :
    (tr n A).map List.sum = sumAxis0 n A := by
  simp [tr, sumAxis0, List.map_map, Function.comp]

theorem tr_row_length (n : Nat) (A : List (List ℚ)) :
    ∀ r ∈ tr n A, r.length = A.length := by
  intro r hr
  simp only [tr, List.mem_map, List.mem_range] at hr
  obtain ⟨j, _, rfl⟩ := hr
  simp

theorem augGrid_row_length (col rows : Nat) (A : List (List ℚ)) :
    ∀ r ∈ augGrid col rows A, r.length = 1 + (A.length - col) := by
  intro r hr
  simp only [augGrid, List.mem_map, List.mem_range] at hr
  obtain ⟨i, hi, rfl⟩ := hr
  by_cases hir : i = rows
  · rw [if_pos hir, List.length_cons, List.length_drop, sumAxis1,
      List.length_map]
    omega
  · have hi2 : i < rows := lt_of_le_of_ne (Nat.lt_succ_iff.mp hi) hir
    rw [if_neg hir, List.length_cons, List.length_drop]
    have htr : (tr rows A).getD i [] = A.map (fun r => r.getD i 0) := by
      rw [tr, getD_map_range _ _ _ _ hi2]
    rw [htr, List.length_map]
    omega

theorem viewerData_row_length (axis0 axis1 col : Nat) (showZ : Bool)
    (d1 : Nat) (B : List (List ℚ)) :
    ∀ r ∈ viewerData axis0 axis1 col showZ d1 B,
      r.length = 1 + ((if axis0 < axis1 then tr d1 B else B).length - col) := by
  intro r hr
  simp only [viewerData, List.mem_map] at hr
  obtain ⟨u, hu, rfl⟩ := hr
  rw [List.length_map]
  exact augGrid_row_length _ _ _ u hu

/-- Claim C2: for a rectangular slice, distinct free axes and a reachable
column scroll offset, all rows of the formatted grid produced by
Viewer::data have equal length, so the equal-row-length assertion never
fails. -/
theorem c2_rows_equal_length (axis0 axis1 col : Nat) (showZ : Bool)
    (d0 d1 : Nat) (B : List (List ℚ)) (hd0 : B.length = d0)
    (hrect : ∀ r ∈ B, r.length = d1) (hdist : axis0 ≠ axis1)
    (hcol : col ≤ (if axis0 < axis1 then d1 else d0)) :
    ∀ r1 ∈ viewerData axis0 axis1 col showZ d1 B,
      ∀ r2 ∈ viewerData axis0 axis1 col showZ d1 B,
        r1.length = r2.length := by
  intro r1 h1 r2 h2
  rw [viewerData_row_length axis0 axis1 col showZ d1 B r1 h1,
    viewerData_row_length axis0 axis1 col showZ d1 B r2 h2]

/-- Witness for C2 at a concrete slice: the first body row and the totals
row of the formatted grid have equal length. -/
theorem c2_rows_equal_length_witness :
    ((viewerData 1 0 0 true 2 c2B).getD 0 []).length =
      ((viewerData 1 0 0 true 2 c2B).getD 2 []).length := by
  have hlen : (viewerData 1 0 0 true 2 c2B).length = 3 := by decide
  have h0 : (viewerData 1 0 0 true 2 c2B).getD 0 [] ∈
      viewerData 1 0 0 true 2 c2B := by
    rw [List.getD_eq_getElem _ [] (by omega)]
    exact List.getElem_mem (by omega)
  have h2 : (viewerData 1 0 0 true 2 c2B).getD 2 [] ∈
      viewerData 1 0 0 true 2 c2B := by
    rw [List.getD_eq_getElem _ [] (by omega)]
    exact List.getElem_mem (by omega)
  exact c2_rows_equal_length 1 0 0 true 2 2 c2B (by decide) (by decide)
    (by decide) (by decide) _ h0 _ h2

theorem augGrid_grand (col rows : Nat) (A : List (List ℚ)) :
    ((augGrid col rows A).getD rows []).getD 0 0 = (sumAxis0 rows A).sum := by
  rw [augGrid, getD_map_range _ _ _ _ (Nat.lt_succ_self rows), if_pos rfl]
  rfl

/-- Claim C6: the grand total cell of the augmented grid is the sum of
all body cells, and transposing the slice (as Viewer::data does when
axis1 > axis0) leaves the grand total unchanged. -/
theorem c6_grand_total (col col2 d1 : Nat) (A : List (List ℚ))
    (hrect : ∀ r ∈ A, r.length = d1) :
    ((augGrid col d1 A).getD d1 []).getD 0 0 = (A.map List.sum).sum ∧
    ((augGrid col2 A.length (tr d1 A)).getD A.length []).getD 0 0 =
      ((augGrid col d1 A).getD d1 []).getD 0 0 := by
  have h1 := augGrid_grand col d1 A
  have h2 := augGrid_grand col2 A.length (tr d1 A)
  constructor
  · rw [h1, sumAxis0_sum d1 A hrect]
  · rw [h1, h2, sumAxis0_sum A.length (tr d1 A) (tr_row_length d1 A),
      tr_map_sum]

/-- Witness for C6 at a concrete slice. -/
theorem c6_grand_total_witness :
    ((augGrid 0 3 c6A).getD 3 []).getD 0 0 = (c6A.map List.sum).sum ∧
    ((augGrid 1 c6A.length (tr 3 c6A)).getD c6A.length []).getD 0 0 =
      ((augGrid 0 3 c6A).getD 3 []).getD 0 0 :=
  c6_grand_total 0 1 3 c6A (by decide)

theorem getD_zero (r : List ℚ) (j : Nat) (h : ∀ x ∈ r, x = 0) :
    r.getD j 0 = 0 := by
  rcases hj : r[j]? with _ | y
  · simp [List.getD_eq_getElem?_getD, hj]
  · have hy := h y (List.getElem?_mem hj)
    simp [List.getD_eq_getElem?_getD, hj, hy]

theorem tr_allZero (n : Nat) (A : List (List ℚ))
    (h : ∀ r ∈ A, ∀ x ∈ r, x = 0) :
    ∀ r ∈ tr n A, ∀ x ∈ r, x = 0 := by
  intro r hr x hx
  simp only [tr, List.mem_map, List.mem_range] at hr
  obtain ⟨j, _, rfl⟩ := hr
  simp only [List.mem_map] at hx
  obtain ⟨u, hu, rfl⟩ := hx
  exact getD_zero u j (h u hu)

theorem augGrid_allZero (col rows : Nat) (A : List (List ℚ))
    (h : ∀ r ∈ A, ∀ x ∈ r, x = 0) :
    ∀ r ∈ augGrid col rows A, ∀ x ∈ r, x = 0 := by
  have hs0 : ∀ y ∈ sumAxis0 rows A, y = 0 := by
    intro y hy
    simp only [sumAxis0, List.mem_map, List.mem_range] at hy
    obtain ⟨j, _, rfl⟩ := hy
    refine List.sum_eq_zero ?_
    intro x hx
    simp only [List.mem_map] at hx
    obtain ⟨u, hu, rfl⟩ := hx
    exact getD_zero u j (h u hu)
  have hs1 : ∀ y ∈ sumAxis1 A, y = 0 := by
    intro y hy
    simp only [sumAxis1, List.mem_map] at hy
    obtain ⟨u, hu, rfl⟩ := hy
    exact List.sum_eq_zero (h u hu)
  intro r hr x hx
  simp only [augGrid, List.mem_map, List.mem_range] at hr
  obtain ⟨i, hi, rfl⟩ := hr
  by_cases hir : i = rows
  · rw [if_pos hir] at hx
    rcases List.mem_cons.mp hx with hx0 | hxd
    · rw [hx0]
      exact List.sum_eq_zero hs0
    · exact hs1 x (List.mem_of_mem_drop hxd)
  · rw [if_neg hir] at hx
    have hi2 : i < rows := lt_of_le_of_ne (Nat.lt_succ_iff.mp hi) hir
    rcases List.mem_cons.mp hx with hx0 | hxd
    · rw [hx0]
      exact getD_zero _ i hs0
    · have hxt : x ∈ (tr rows A).getD i [] := List.mem_of_mem_drop hxd
      rw [tr, getD_map_range _ _ _ _ hi2] at hxt
      simp only [List.mem_map] at hxt
      obtain ⟨u, hu, rfl⟩ := hxt
      exact getD_zero u i (h u hu)

/-- Witness for the amended C10 at a concrete state: initialize_state
succeeds on c10wit and the resulting state satisfies every conclusion. -/
theorem c10_initialize_state_witness :
    c10witResult.axis0 ≠ c10witResult.axis1 ∧
      c10witResult.active_index.length = 2 ∧
      (c10wit.axis0 = c10wit.axis1 →
        c10witResult.axis0 = 2 - 1 ∧ c10witResult.axis1 = 0) ∧
      (c10wit.axis0 ≠ c10wit.axis1 →
        c10witResult.axis0 = c10wit.axis0 ∧
          c10witResult.axis1 = c10wit.axis1) ∧
      (c10wit.active_index = [] →
        c10witResult.active_index = List.replicate 2 0) :=
  c10_initialize_state c10wit ⟨2, ["r", "c"], [["a"], ["b"]]⟩ rfl (by decide)
    (Or.inl rfl) c10witResult rfl

/-- Claim C9: the formatter renders a dash when the dash mode is on and
the value is zero within tolerance, the integer string when the dash
mode is on and the value is integral, and the two-decimal string
otherwise; and on an all-zeros slice with the dash mode on every body
and margin cell of the projected grid renders as a dash. -/
theorem c9_formatting (showZ : Bool) (f : ℚ) :
    (showZ = true → |f| ≤ epsAbs → formatCell showZ f = "-") ∧
    (showZ = true → ¬ |f| ≤ epsAbs → f.den = 1 →
      formatCell showZ f = toString f.num) ∧
    (showZ = false ∨ (¬ |f| ≤ epsAbs ∧ f.den ≠ 1) →
      formatCell showZ f = twoDecString f) ∧
    (∀ axis0 axis1 col d1 B, (∀ r ∈ B, ∀ x ∈ r, x = (0 : ℚ)) →
      ∀ r ∈ viewerData axis0 axis1 col true d1 B, ∀ c ∈ r, c = "-") := by
  refine ⟨?_, ?_, ?_, ?_⟩
  · intro hs hz
    rw [formatCell, if_pos ⟨hs, hz⟩]
  · intro hs hz hd
    rw [formatCell, if_neg fun hc => hz hc.2, if_pos ⟨hs, hd⟩]
  · rintro (hs | ⟨hz, hd⟩)
    · subst hs
      simp [formatCell]
    · rw [formatCell, if_neg fun hc => hz hc.2, if_neg fun hc => hd hc.2]
  · intro axis0 axis1 col d1 B hB r hr c hc
    simp only [viewerData, List.mem_map] at hr
    obtain ⟨u, hu, rfl⟩ := hr
    simp only [List.mem_map] at hc
    obtain ⟨x, hx, rfl⟩ := hc
    have hA : ∀ rr ∈ (if axis0 < axis1 then tr d1 B else B),
        ∀ y ∈ rr, y = (0 : ℚ) := by
      by_cases hlt : axis0 < axis1
      · rw [if_pos hlt]
        exact tr_allZero d1 B hB
      · rw [if_neg hlt]
        exact hB
    have hx0 := augGrid_allZero _ _ _ hA u hu x hx
    rw [hx0, formatCell,
      if_pos ⟨rfl, by rw [abs_zero]; norm_num [epsAbs]⟩]

/-- Witness for C9 at concrete values. -/
theorem c9_formatting_witness :
    formatCell true 0 = "-" ∧ formatCell true 3 = toString (3 : ℚ).num ∧
      formatCell false (7 / 2) = twoDecString (7 / 2) :=
  ⟨(c9_formatting true 0).1 rfl (by rw [abs_zero]; norm_num [epsAbs]),
   (c9_formatting true 3).2.1 rfl (by norm_num [epsAbs, abs_le])
     (by norm_num),
   (c9_formatting false (7 / 2)).2.2.1 (Or.inl rfl)⟩

/-- Claim C4 counterexample: scanning two discovered tables of which the
second fails to open, the stored total goes from 2 (after enumeration)
to 1 (at completion), so the counters are not monotone over the scan. -/
theorem c4_counterexample :
    countersMonoB (scanTrace c4openOk (fun _ => false) ⟨[], 0⟩ ["a", "b"])
        = false ∧
      ((scanTrace c4openOk (fun _ => false) ⟨[], 0⟩
          ["a", "b"]).getD 2 ⟨[], 0⟩).ndatasets = 2 ∧
      ((scanTrace c4openOk (fun _ => false) ⟨[], 0⟩
          ["a", "b"]).getLastD ⟨[], 0⟩).ndatasets = 1 := by
  decide

theorem scanLoopTrace_ndatasets (openOk : String → Bool)
    (cancel : Nat → Bool) :
    ∀ (l : List String) (k : Nat) (ds : List String) (nd : Nat),
      ∀ s ∈ scanLoopTrace openOk cancel l k ds nd, s.ndatasets = nd := by
  intro l
  induction l with
  | nil =>
    intro k ds nd s hs
    simp [scanLoopTrace] at hs
  | cons name rest ih =>
    intro k ds nd s hs
    simp only [scanLoopTrace] at hs
    rcases List.mem_cons.mp hs with h1 | h2
    · rw [h1]
    · by_cases hc : cancel k
      · rw [if_pos hc] at h2
        simp at h2
      · rw [if_neg hc] at h2
        exact ih _ _ _ s h2

theorem countersMonoB_loop (openOk : String → Bool) (cancel : Nat → Bool) :
    ∀ (l : List String) (k : Nat) (ds : List String) (nd : Nat),
      countersMonoB
        (⟨ds, nd⟩ :: scanLoopTrace openOk cancel l k ds nd) = true := by
  intro l
  induction l with
  | nil =>
    intro k ds nd
    rfl
  | cons name rest ih =>
    intro k ds nd
    by_cases ho : openOk name <;> by_cases hc : cancel k <;>
      simp [scanLoopTrace, countersMonoB, ho, hc, ih, Nat.le_succ]

theorem scanLoopFinal_length (openOk : String → Bool) (cancel : Nat → Bool) :
    ∀ (l : List String) (k : Nat) (ds : List String),
      (scanLoopFinal openOk cancel l k ds).length ≤ ds.length + l.length := by
  intro l
  induction l with
  | nil =>
    intro k ds
    simp [scanLoopFinal]
  | cons name rest ih =>
    intro k ds
    have h2 : ∀ ds2 : List String, ds2.length ≤ ds.length + 1 →
        (if cancel k then ds2
         else scanLoopFinal openOk cancel rest (k + 1) ds2).length ≤
          ds.length + (name :: rest).length := by
      intro ds2 hds2
      by_cases hc : cancel k
      · rw [if_pos hc]
        simp only [List.length_cons]
        omega
      · rw [if_neg hc]
        have := ih (k + 1) ds2
        simp only [List.length_cons]
        omega
    simp only [scanLoopFinal]
    apply h2
    by_cases ho : openOk name
    · rw [if_pos ho]
      simp
    · rw [if_neg ho]
      omega

/-- Claim C4 amended: within one scan, from the point the discovered
total is stored through the per-table loop both counters are monotone
(the collection only grows and the stored total stays at the discovered
count), but the completion step overwrites the stored total with the
number of successfully opened tables, which never exceeds — and after
any open failure is strictly below — the discovered count. -/
theorem c4_progress (openOk : String → Bool) (cancel : Nat → Bool)
    (init : ScanState) (names : List String) :
    countersMonoB (ScanState.mk [] names.length ::
      scanLoopTrace openOk cancel names 0 [] names.length) = true ∧
    (∀ s ∈ scanLoopTrace openOk cancel names 0 [] names.length,
      s.ndatasets = names.length) ∧
    (scanTrace openOk cancel init names).getLastD ⟨[], 0⟩ =
      ⟨scanLoopFinal openOk cancel names 0 [],
        (scanLoopFinal openOk cancel names 0 []).length⟩ ∧
    (scanLoopFinal openOk cancel names 0 []).length ≤ names.length := by
  refine ⟨countersMonoB_loop openOk cancel names 0 [] names.length,
    fun s hs =>
      scanLoopTrace_ndatasets openOk cancel names 0 [] names.length s hs,
    ?_, ?_⟩
  · simp only [scanTrace, List.getLastD_cons]
    exact List.getLastD_concat _ _ _
  · have := scanLoopFinal_length openOk cancel names 0 []
    simpa using this

theorem isSome_bind {α β : Type} (x : Option α) (g : α → Option β) :
    ((x.bind g).isSome = true) ↔ ∃ a, x = some a ∧ (g a).isSome = true := by
  cases x <;> simp

theorem readCoords_isSome (f : FileM) (g : String) :
    ∀ dims : List String, (readCoords f g dims).isSome = true ↔
      ∀ dim ∈ dims, ∃ c, f.dataset (g ++ "/" ++ dim) = some c ∧
        c.read1d.isSome = true := by
  intro dims
  induction dims with
  | nil => simp [readCoords]
  | cons dim rest ih =>
    rw [readCoords]
    constructor
    · intro h
      obtain ⟨c, hds, h⟩ := (isSome_bind _ _).mp h
      obtain ⟨set, hrd, h⟩ := (isSome_bind _ _).mp h
      obtain ⟨r, hrc, _⟩ := (isSome_bind _ _).mp h
      intro d hd
      rcases List.mem_cons.mp hd with h1 | h2
      · subst h1
        exact ⟨c, hds, by rw [hrd]; rfl⟩
      · exact (ih.mp (by rw [hrc]; rfl)) d h2
    · intro h
      obtain ⟨c, hds, hrd⟩ := h dim (List.mem_cons_self dim rest)
      have hrest := ih.mpr fun d hd => h d (List.mem_cons_of_mem dim hd)
      rcases hrd2 : c.read1d with _ | set
      · rw [hrd2] at hrd
        simp at hrd
      rcases hrc : readCoords f g rest with _ | r
      · rw [hrc] at hrest
        simp at hrest
      refine (isSome_bind _ _).mpr ⟨c, hds, ?_⟩
      refine (isSome_bind _ _).mpr ⟨set, hrd2, ?_⟩
      exact (isSome_bind _ _).mpr ⟨r, rfl, rfl⟩

/-- Claim C5 amended: Data::new succeeds exactly when the dataset, its
units, doc and type attributes, its dims attribute and every per-axis
coordinate table are present and readable; it never compares coordinate
label counts with the declared shape, so a mismatched store opens
successfully. -/
theorem c5_open_checks (f : FileM) (name : String) :
    (DataNew f name).isSome = true ↔
      ∃ ds, f.dataset name = some ds ∧
        (ds.attrScalar "units").isSome = true ∧
        (ds.attrScalar "doc").isSome = true ∧
        (ds.attrScalar "type").isSome = true ∧
        ∃ dims, ds.attr1d "dims" = some dims ∧
          ∀ dim ∈ dims, ∃ c,
            f.dataset (gName ds.dname ++ "/" ++ dim) = some c ∧
              c.read1d.isSome = true := by
  rw [DataNew]
  constructor
  · intro h
    obtain ⟨ds, hds, h⟩ := (isSome_bind _ _).mp h
    obtain ⟨u, hu, h⟩ := (isSome_bind _ _).mp h
    obtain ⟨doc, hdoc, h⟩ := (isSome_bind _ _).mp h
    obtain ⟨ty, hty, h⟩ := (isSome_bind _ _).mp h
    obtain ⟨dims, hdm, h⟩ := (isSome_bind _ _).mp h
    obtain ⟨sd, hrc, _⟩ := (isSome_bind _ _).mp h
    exact ⟨ds, hds, by rw [hu]; rfl, by rw [hdoc]; rfl, by rw [hty]; rfl,
      dims, hdm,
      (readCoords_isSome f (gName ds.dname) dims).mp (by rw [hrc]; rfl)⟩
  · rintro ⟨ds, hds, hu, hdoc, hty, dims, hdm, hcoords⟩
    have hrcs := (readCoords_isSome f (gName ds.dname) dims).mpr hcoords
    rcases hrc : readCoords f (gName ds.dname) dims with _ | sd
    · rw [hrc] at hrcs
      simp at hrcs
    rcases hu2 : ds.attrScalar "units" with _ | u
    · rw [hu2] at hu
      simp at hu
    rcases hdoc2 : ds.attrScalar "doc" with _ | doc
    · rw [hdoc2] at hdoc
      simp at hdoc
    rcases hty2 : ds.attrScalar "type" with _ | ty
    · rw [hty2] at hty
      simp at hty
    refine (isSome_bind _ _).mpr ⟨ds, hds, ?_⟩
    refine (isSome_bind _ _).mpr ⟨u, hu2, ?_⟩
    refine (isSome_bind _ _).mpr ⟨doc, hdoc2, ?_⟩
    refine (isSome_bind _ _).mpr ⟨ty, hty2, ?_⟩
    refine (isSome_bind _ _).mpr ⟨dims, hdm, ?_⟩
    exact (isSome_bind _ _).mpr ⟨sd, hrc, rfl⟩

/-- Claim C5 counterexample: a store whose only table declares shape [2]
while its single coordinate table carries 3 labels; Data::new still
succeeds, with the mismatch visible in the returned record. -/
theorem c5_counterexample :
    (DataNew c5file "/g/t").isSome = true ∧
    (DataNew c5file "/g/t").map (fun r => (r.set_data.getD 0 []).length) =
      some 3 ∧
    (DataNew c5file "/g/t").map (fun r => r.shape.getD 0 0) = some 2 := by
  decide

end E2020
